import Mathlib

/-!
A shallow embedding of `src/gitlab/monitoring/gitlab_exporter.py`, a
single-file GitLab metrics exporter, together with theorems settling the
specification's claims about its event-time reducer, its result cache, its
alert deduplication, its failure isolation, and its Prometheus exposition.

Conventions of the embedding:
* timestamps (`datetime` values after `fromisoformat`, `time.time()` results)
  are integer numbers of seconds; durations are rationals of hours, so
  `total_seconds() / 3600` is exact rational division;
* the GitLab HTTP API is a `World` of three endpoint functions, each returning
  an `Except Unit` result; `gitlab_api`'s `try/except` wrapper that turns any
  failure into the empty list is `apiOrEmpty`;
* Python `dict`/JSON records become structures; `event.get("label")` possibly
  being null becomes an `Option String` carrying the label name;
* the Prometheus text lines produced by `MetricsHandler.do_GET` are modelled
  structurally as `SampleLine` records (metric name, label values, sample
  value) rather than as raw byte strings; the per-line label transformations
  (quote escaping, 50-character title truncation) are kept;
* the project metrics `dict` keyed by `path_with_namespace` (insertion
  ordered, one entry per resolved project) is an association list; this
  matches the source whenever the resolved projects of one cycle have
  pairwise distinct `path_with_namespace` values;
* the effect of `send_email_alert` is abstracted to the boolean decision of
  whether a notification fires (the source swallows every transport failure,
  so the decision is the only observable retained by the cache).
-/

namespace GitlabExporter

/-- Wall-clock timestamps, in whole seconds, as integers. -/
abbrev Time := ℤ

/-- The fields of `config.py` read by the exporter (the source imports it as
`config`; the file itself is not part of the repository, so its values stay
abstract here). -/
structure Config where
  LABEL_REWORK : String
  LABEL_IN_REVIEW : String
  LABEL_REWORK_DONE : String
  YOUR_EMAIL : String
  REPOSITORIES : List String

/-- One resource-label event, as consumed by `calculate_time_in_state`:
`event.get("created_at")` parsed to a timestamp, `event.get("label")` (which
may be null, hence `Option`, holding the `name` field), and
`event.get("action")` (the strings "add" or "remove" in practice, but the
source compares against "add" only, so arbitrary strings are allowed). -/
structure LabelEvent where
  created_at : Time
  label : Option String
  action : String
  deriving DecidableEq

/-- An assignee record: the source compares `a.get("username")`; the `name`
field stands for every non-username identity field such a record carries. -/
structure Assignee where
  username : String
  name : String
  deriving DecidableEq

/-- The fields of a merge-request JSON object that the exporter reads. -/
structure MR where
  iid : ℕ
  title : String
  created_at : Time
  source_branch : String
  target_branch : String
  labels : List String
  assignees : List Assignee
  web_url : String
  deriving DecidableEq

/-- The fields of a project JSON object that the exporter reads. -/
structure Project where
  id : ℕ
  name : String
  path : String
  path_with_namespace : String
  deriving DecidableEq

/-- The three `*_added` trackers of the scan loop in
`calculate_time_in_state` (lines 59-78): `None` until the first matching
"add" event is seen. -/
structure ScanState where
  rework_added : Option Time
  in_review_added : Option Time
  rework_done_added : Option Time
  deriving DecidableEq

/-- One iteration of the event loop of `calculate_time_in_state`
(lines 64-78): skip events with a null label; on an "add" action, record the
event time for the first add of each watched label (`not rework_added` in
Python is exactly "the tracker is still None", since datetimes are truthy). -/
def scanStep (cfg : Config) (s : ScanState) (e : LabelEvent) : ScanState :=
  match e.label with
  | none => s
  | some label_name =>
    if e.action = "add" then
      if label_name = cfg.LABEL_REWORK ∧ s.rework_added = none then
        { s with rework_added := some e.created_at }
      else if label_name = cfg.LABEL_IN_REVIEW ∧ s.in_review_added = none then
        { s with in_review_added := some e.created_at }
      else if label_name = cfg.LABEL_REWORK_DONE ∧ s.rework_done_added = none then
        { s with rework_done_added := some e.created_at }
      else s
    else s

/-- The whole scan loop of `calculate_time_in_state` (lines 64-78), starting
from the three `None` trackers of lines 59-61. -/
def scanOf (cfg : Config) (events : List LabelEvent) : ScanState :=
  events.foldl (scanStep cfg) ⟨none, none, none⟩

/-- Lines 80-98 of `calculate_time_in_state`: turn the three recorded
timestamps into the three optional durations, in fractional hours
(`total_seconds() / 3600`). -/
def durationsFromScan (s : ScanState) (created_at now : Time) :
    Option ℚ × Option ℚ × Option ℚ :=
  let time_in_rework : Option ℚ :=
    match s.rework_added, s.rework_done_added with
    | some ra, some rd => some (((rd - ra : ℤ) : ℚ) / 3600)
    | _, _ => none
  let time_in_review : Option ℚ :=
    match s.in_review_added with
    | some ir =>
      match s.rework_done_added with
      | some rd => some (((rd - ir : ℤ) : ℚ) / 3600)
      | none => some (((now - ir : ℤ) : ℚ) / 3600)
    | none => none
  let time_to_complete : Option ℚ :=
    match s.rework_done_added with
    | some rd => some (((rd - created_at : ℤ) : ℚ) / 3600)
    | none => none
  (time_in_rework, time_in_review, time_to_complete)

/-- The body of `calculate_time_in_state` (lines 52-98), with the label-event
fetch factored out into the `events` argument (the source fetches the list
itself and then never touches the network again) and Python's implicit
wall clock passed as `now`.  Returns the triple
`(time_in_rework, time_in_review, time_to_complete)` in hours; the
`if not events` early return of lines 55-56 is the first branch. -/
def calculate_time_in_state (cfg : Config) (created_at : Time)
    (events : List LabelEvent) (now : Time) :
    Option ℚ × Option ℚ × Option ℚ :=
  if events = [] then (none, none, none)
  else durationsFromScan (scanOf cfg events) created_at now

/-- Specification-side observable: the timestamp of the first event in the
log that adds the given label, if any. -/
def firstAddTime (lbl : String) (events : List LabelEvent) : Option Time :=
  (events.find? fun e => decide (e.label = some lbl ∧ e.action = "add")).map
    (·.created_at)

/-- The upstream GitLab API as seen through the three endpoints the exporter
calls; each call either returns decoded data or fails (network error,
non-success status, decode error — all collapsed by `gitlab_api`). -/
structure World where
  searchProjects : String → Except Unit (List Project)
  mergeRequests : ℕ → Except Unit (List MR)
  labelEvents : ℕ → ℕ → Except Unit (List LabelEvent)

/-- The `try/except` of `gitlab_api` (lines 16-26): any failure degrades to
the empty list and the caller continues. -/
def apiOrEmpty : Except Unit (List α) → List α
  | .ok v => v
  | .error _ => []

/-- `get_all_projects` (lines 28-42): for each configured repository name,
search, then take the first result whose `path` or `name` matches exactly;
a name with no match contributes nothing (the `for...else` only logs). -/
def get_all_projects (w : World) (cfg : Config) : List Project :=
  cfg.REPOSITORIES.filterMap fun repo_name =>
    (apiOrEmpty (w.searchProjects repo_name)).find? fun proj =>
      proj.path == repo_name || proj.name == repo_name

/-- `get_merge_requests` (lines 44-46). -/
def get_merge_requests (w : World) (project_id : ℕ) : List MR :=
  apiOrEmpty (w.mergeRequests project_id)

/-- `get_mr_label_events` (lines 48-50). -/
def get_mr_label_events (w : World) (project_id : ℕ) (mr_iid : ℕ) :
    List LabelEvent :=
  apiOrEmpty (w.labelEvents project_id mr_iid)

/-- Python's `email.split("@")[0]` (line 182): everything before the first
at-sign (the whole string when it has no at-sign). -/
def emailLocal (e : String) : String :=
  String.mk (e.data.takeWhile fun c => c ≠ '@')

/-- Line 150: `[a.get("username") for a in mr.get("assignees", [])]`. -/
def assigneeUsernames (mr : MR) : List String :=
  mr.assignees.map Assignee.username

/-- Python's `x or 0` applied to an optional float (lines 168-170): `None`
becomes `0`; a number is kept (`0.0 or 0` is `0`, so this agrees with the
source on every value). -/
def orZero : Option ℚ → ℚ
  | none => 0
  | some v => v

/-- The `branch_data` record built per merge request (lines 163-174). -/
structure BranchData where
  project : String
  branch : String
  target_branch : String
  mr_title : String
  time_in_rework : ℚ
  time_in_review : ℚ
  time_to_complete : ℚ
  has_rework : Bool
  has_in_review : Bool
  has_rework_done : Bool
  deriving DecidableEq

/-- Lines 163-174: assemble one `branch_data` record from a merge request and
the (optional) timing triple returned by the reducer. -/
def mkBranchData (project_name : String) (cfg : Config) (mr : MR)
    (t : Option ℚ × Option ℚ × Option ℚ) : BranchData :=
  { project := project_name
    branch := mr.source_branch
    target_branch := mr.target_branch
    mr_title := mr.title
    time_in_rework := orZero t.1
    time_in_review := orZero t.2.1
    time_to_complete := orZero t.2.2
    has_rework := decide (cfg.LABEL_REWORK ∈ mr.labels)
    has_in_review := decide (cfg.LABEL_IN_REVIEW ∈ mr.labels)
    has_rework_done := decide (cfg.LABEL_REWORK_DONE ∈ mr.labels) }

/-- One entry of the `rework_mrs` alert list (lines 184-189). -/
structure ReworkItem where
  title : String
  url : String
  created : Time
  project : String
  deriving DecidableEq

/-- The five per-project counters (lines 140-144). -/
structure ProjectMetrics where
  total_mrs : ℕ
  rework_mrs : ℕ
  rework_assigned_to_me : ℕ
  in_review_mrs : ℕ
  rework_done_mrs : ℕ
  deriving DecidableEq

/-- The mutable state threaded through the per-merge-request loop of
`collect_metrics`: the owning project's counters plus the (globally
appended) `branch_metrics` and `rework_mrs` lists. -/
structure MRAcc where
  pm : ProjectMetrics
  branch_metrics : List BranchData
  rework_mrs : List ReworkItem
  deriving DecidableEq

/-- The body of the `for mr in mrs` loop of `collect_metrics`
(lines 148-195): bump `total_mrs`, run the reducer, append the
`branch_data` record, then bump the label counters — `rework_assigned_to_me`
(and the alert list) only when the rework label is present and the local part
of the configured email occurs among the assignee usernames. -/
def processMRStep (w : World) (cfg : Config) (now : Time) (project_id : ℕ)
    (project_name : String) (acc : MRAcc) (mr : MR) : MRAcc :=
  let labels := mr.labels
  let assignees := assigneeUsernames mr
  let pm0 := { acc.pm with total_mrs := acc.pm.total_mrs + 1 }
  let t := calculate_time_in_state cfg mr.created_at
    (get_mr_label_events w project_id mr.iid) now
  let branch_data := mkBranchData project_name cfg mr t
  let branch_metrics := acc.branch_metrics ++ [branch_data]
  let step1 : ProjectMetrics × List ReworkItem :=
    if cfg.LABEL_REWORK ∈ labels then
      let pm1 := { pm0 with rework_mrs := pm0.rework_mrs + 1 }
      if emailLocal cfg.YOUR_EMAIL ∈ assignees then
        ({ pm1 with rework_assigned_to_me := pm1.rework_assigned_to_me + 1 },
          acc.rework_mrs ++
            [⟨mr.title, mr.web_url, mr.created_at, project_name⟩])
      else (pm1, acc.rework_mrs)
    else (pm0, acc.rework_mrs)
  let pm2 :=
    if cfg.LABEL_IN_REVIEW ∈ labels then
      { step1.1 with in_review_mrs := step1.1.in_review_mrs + 1 }
    else step1.1
  let pm3 :=
    if cfg.LABEL_REWORK_DONE ∈ labels then
      { pm2 with rework_done_mrs := pm2.rework_done_mrs + 1 }
    else pm2
  { pm := pm3, branch_metrics := branch_metrics, rework_mrs := step1.2 }

/-- The per-project body of `collect_metrics` (lines 135-195): zero the five
counters, fetch the open merge requests, and fold the per-MR step over them.
Returns the project's metrics entry plus its contributions to the global
`branch_metrics` and `rework_mrs` lists (the source appends to shared lists;
concatenating the per-project contributions in project order is the same
final list). -/
def processProject (w : World) (cfg : Config) (now : Time)
    (project : Project) :
    (String × ProjectMetrics) × List BranchData × List ReworkItem :=
  let project_id := project.id
  let project_name := project.path_with_namespace
  let mrs := get_merge_requests w project_id
  let acc := mrs.foldl (processMRStep w cfg now project_id project_name)
    ⟨⟨0, 0, 0, 0, 0⟩, [], []⟩
  ((project_name, acc.pm), acc.branch_metrics, acc.rework_mrs)

/-- The `result` dict of `collect_metrics` (lines 204-207). -/
structure Snapshot where
  project_metrics : List (String × ProjectMetrics)
  branch_metrics : List BranchData
  deriving DecidableEq

/-- The snapshot a full (non-cached) collection cycle produces. -/
def collectSnapshot (w : World) (cfg : Config) (now : Time) : Snapshot :=
  let per := (get_all_projects w cfg).map (processProject w cfg now)
  { project_metrics := per.map (·.1)
    branch_metrics := (per.map (·.2.1)).flatten }

/-- The `rework_mrs` list a full collection cycle accumulates (the items
with the rework label that are assigned to the configured identity). -/
def reworkItems (w : World) (cfg : Config) (now : Time) : List ReworkItem :=
  (((get_all_projects w cfg).map (processProject w cfg now)).map (·.2.2)).flatten

/-- The module-level `metrics_cache` dict (lines 11-14): last refresh time,
cached snapshot, and the `last_rework_count` key written at line 211 (read
with default 0 at line 198, hence a plain `ℕ` initialised to 0). -/
structure Cache where
  last_update : Time
  data : Snapshot
  last_rework_count : ℕ
  deriving DecidableEq

/-- The cache as initialised at module load: `last_update = 0`, empty data,
no rework count recorded yet (`.get` default 0). -/
def initialCache : Cache :=
  { last_update := 0, data := ⟨[], []⟩, last_rework_count := 0 }

/-- `collect_metrics` (lines 119-213) as a state transformer over the cache.
Returns `(returned snapshot, new cache, collector ran, notification fired)`.
The freshness check is line 124; the notification condition is line 198
(`rework_mrs` non-empty and strictly more items than `last_rework_count`);
lines 209-211 replace the snapshot, the timestamp (the `now` captured at
entry) and the rework count unconditionally on every non-cached cycle. -/
def collect_metrics (w : World) (cfg : Config) (now : Time) (cache : Cache) :
    Snapshot × Cache × Bool × Bool :=
  if now - cache.last_update < 10 then
    (cache.data, cache, false, false)
  else
    let result := collectSnapshot w cfg now
    let rework_mrs := reworkItems w cfg now
    let notified :=
      !rework_mrs.isEmpty &&
        decide (cache.last_rework_count < rework_mrs.length)
    (result,
      { last_update := now, data := result,
        last_rework_count := rework_mrs.length },
      true, notified)

/-- The nine metric families emitted by `MetricsHandler.do_GET`. -/
inductive MetricName where
  | merge_requests_total
  | rework_mrs_name
  | rework_assigned_to_me_name
  | in_review_mrs_name
  | rework_done_mrs_name
  | mr_info
  | time_in_rework_hours
  | time_in_review_hours
  | time_to_complete_hours
  deriving DecidableEq

/-- One Prometheus sample line, modelled structurally: the metric family,
the label values in emission order (project, branch, target, title — empty
for project-level series), and the sample value. -/
structure SampleLine where
  metric : MetricName
  project : String
  branch : String
  target : String
  title : String
  value : ℚ
  deriving DecidableEq

/-- Line 257 and friends: `.replace('"', '\\"')` on embedded label values. -/
def escapeQuotes (s : String) : String :=
  s.replace "\"" "\\\""

/-- Lines 255-272: render one per-item record — always one `gitlab_mr_info`
line with value 1, then each of the three timing lines only when the stored
value is strictly greater than zero.  The title is escaped then truncated to
50 characters as in line 259. -/
def renderBranch (bd : BranchData) : List SampleLine :=
  let project := bd.project
  let branch := escapeQuotes bd.branch
  let target := escapeQuotes bd.target_branch
  let title := (escapeQuotes bd.mr_title).take 50
  [⟨.mr_info, project, branch, target, title, 1⟩]
    ++ (if bd.time_in_rework > 0 then
          [⟨.time_in_rework_hours, project, branch, target, title,
            bd.time_in_rework⟩]
        else [])
    ++ (if bd.time_in_review > 0 then
          [⟨.time_in_review_hours, project, branch, target, title,
            bd.time_in_review⟩]
        else [])
    ++ (if bd.time_to_complete > 0 then
          [⟨.time_to_complete_hours, project, branch, target, title,
            bd.time_to_complete⟩]
        else [])

/-- Lines 247-252: the five project-level counter lines. -/
def renderProject (entry : String × ProjectMetrics) : List SampleLine :=
  [⟨.merge_requests_total, entry.1, "", "", "", (entry.2.total_mrs : ℚ)⟩,
    ⟨.rework_mrs_name, entry.1, "", "", "", (entry.2.rework_mrs : ℚ)⟩,
    ⟨.rework_assigned_to_me_name, entry.1, "", "", "",
      (entry.2.rework_assigned_to_me : ℚ)⟩,
    ⟨.in_review_mrs_name, entry.1, "", "", "", (entry.2.in_review_mrs : ℚ)⟩,
    ⟨.rework_done_mrs_name, entry.1, "", "", "",
      (entry.2.rework_done_mrs : ℚ)⟩]

/-- Lines 246-272: all sample lines of one scrape response, project-level
series first, then the per-item series in record order. -/
def render (snap : Snapshot) : List SampleLine :=
  (snap.project_metrics.map renderProject).flatten
    ++ (snap.branch_metrics.map renderBranch).flatten

/-- Whether a sample line belongs to one of the three per-item timing
families. -/
def isTimingMetric : MetricName → Bool
  | .time_in_rework_hours => true
  | .time_in_review_hours => true
  | .time_to_complete_hours => true
  | _ => false

/-! Concrete instances used to exercise the definitions. -/

/-- A sample configuration with the three distinct label names and an email
identity containing an at-sign. -/
def cfgEx : Config :=
  { LABEL_REWORK := "rework", LABEL_IN_REVIEW := "in_review",
    LABEL_REWORK_DONE := "rework_done", YOUR_EMAIL := "me@example.com",
    REPOSITORIES := ["repo"] }

/-- A sample resolved project. -/
def projEx : Project := ⟨1, "repo", "repo", "group/repo"⟩

/-- A merge request carrying the rework label and assigned (by username) to
the configured identity. -/
def mrMine (i : ℕ) : MR :=
  { iid := i, title := "t", created_at := 0, source_branch := "b",
    target_branch := "main", labels := ["rework"],
    assignees := [⟨"me", "Me Person"⟩], web_url := "u" }

/-- A world with one matching project and `n` open rework merge requests
assigned to the configured identity, with empty event logs. -/
def worldMine (n : ℕ) : World :=
  { searchProjects := fun s => if s = "repo" then .ok [projEx] else .ok []
    mergeRequests := fun i =>
      if i = 1 then .ok ((List.range n).map mrMine) else .ok []
    labelEvents := fun _ _ => .ok [] }

/-- An event log whose rework label is added, removed, re-added, and whose
rework_done label is added then removed. -/
def eventsEx1 : List LabelEvent :=
  [⟨3600, some "rework", "add"⟩, ⟨5000, some "rework", "remove"⟩,
    ⟨7200, some "rework", "add"⟩, ⟨10800, some "rework_done", "add"⟩,
    ⟨11000, some "rework_done", "remove"⟩]

/-- An out-of-order event log: rework_done is added at an earlier timestamp
than rework. -/
def eventsOutOfOrder : List LabelEvent :=
  [⟨7200, some "rework", "add"⟩, ⟨3600, some "rework_done", "add"⟩]

/-- An event log producing a measured in-review duration of exactly zero
(in_review and rework_done added at the same timestamp). -/
def eventsZeroReview : List LabelEvent :=
  [⟨3600, some "in_review", "add"⟩, ⟨3600, some "rework_done", "add"⟩]

/-- An event log with rework and in-review adds but no rework_done add. -/
def eventsNoDone : List LabelEvent :=
  [⟨1, some "rework", "add"⟩, ⟨2, some "in_review", "add"⟩]

/-- A merge request without watched labels. -/
def mrPlain : MR :=
  { iid := 7, title := "Fix thing", created_at := 3600,
    source_branch := "feature", target_branch := "main", labels := [],
    assignees := [], web_url := "http://git/mr/7" }

/-- A cache whose snapshot was last refreshed at time 20. -/
def cache20 : Cache := { last_update := 20, data := ⟨[], []⟩, last_rework_count := 0 }

/-- The four collection cycles of the rework-mine count trace [2, 2, 1, 3],
executed 10 seconds apart starting from the initial cache. -/
def c3cycle1 : Snapshot × Cache × Bool × Bool :=
  collect_metrics (worldMine 2) cfgEx 10 initialCache

/-- Second cycle of the trace: count stays 2. -/
def c3cycle2 : Snapshot × Cache × Bool × Bool :=
  collect_metrics (worldMine 2) cfgEx 20 c3cycle1.2.1

/-- Third cycle of the trace: count drops to 1. -/
def c3cycle3 : Snapshot × Cache × Bool × Bool :=
  collect_metrics (worldMine 1) cfgEx 30 c3cycle2.2.1

/-- Fourth cycle of the trace: count rises to 3. -/
def c3cycle4 : Snapshot × Cache × Bool × Bool :=
  collect_metrics (worldMine 3) cfgEx 40 c3cycle3.2.1

/-- A world with one project and two merge requests, each with a one-event
log. -/
def w8a : World :=
  { searchProjects := fun s => if s = "repo" then .ok [projEx] else .ok []
    mergeRequests := fun i =>
      if i = 1 then .ok [mrMine 1, mrMine 2] else .ok []
    labelEvents := fun _ _ => .ok [⟨3600, some "rework", "add"⟩] }

/-- The same world as `w8a` except that the label-event call for merge
request 2 of project 1 fails. -/
def w8b : World :=
  { searchProjects := w8a.searchProjects
    mergeRequests := w8a.mergeRequests
    labelEvents := fun i j =>
      if i = 1 ∧ j = 2 then .error () else w8a.labelEvents i j }

/-- A per-item record whose in-review time is exactly zero. -/
def bdReview0 : BranchData :=
  { project := "group/repo", branch := "feature", target_branch := "main",
    mr_title := "Fix", time_in_rework := 0, time_in_review := 0,
    time_to_complete := 0, has_rework := false, has_in_review := true,
    has_rework_done := false }

/-- A per-item record whose in-review time is 0.01 hours. -/
def bdReview001 : BranchData :=
  { bdReview0 with time_in_review := 1 / 100 }

/-! Lemmas about the event scan of `calculate_time_in_state`. -/

lemma scanStep_rework_some (cfg : Config) (s : ScanState) (e : LabelEvent)
    (t : Time) (h : s.rework_added = some t) :
    (scanStep cfg s e).rework_added = some t := by
  cases hl : e.label with
  | none => simpa [scanStep, hl] using h
  | some lbl =>
    simp only [scanStep, hl]
    split_ifs <;> simp_all

lemma scanStep_in_review_some (cfg : Config) (s : ScanState) (e : LabelEvent)
    (t : Time) (h : s.in_review_added = some t) :
    (scanStep cfg s e).in_review_added = some t := by
  cases hl : e.label with
  | none => simpa [scanStep, hl] using h
  | some lbl =>
    simp only [scanStep, hl]
    split_ifs <;> simp_all

lemma scanStep_done_some (cfg : Config) (s : ScanState) (e : LabelEvent)
    (t : Time) (h : s.rework_done_added = some t) :
    (scanStep cfg s e).rework_done_added = some t := by
  cases hl : e.label with
  | none => simpa [scanStep, hl] using h
  | some lbl =>
    simp only [scanStep, hl]
    split_ifs <;> simp_all

lemma scan_foldl_rework_some (cfg : Config) (events : List LabelEvent) :
    ∀ (s : ScanState) (t : Time), s.rework_added = some t →
      (events.foldl (scanStep cfg) s).rework_added = some t := by
  induction events with
  | nil => intro s t h; simpa using h
  | cons e es ih =>
    intro s t h
    rw [List.foldl_cons]
    exact ih _ t (scanStep_rework_some cfg s e t h)

lemma scan_foldl_done_some (cfg : Config) (events : List LabelEvent) :
    ∀ (s : ScanState) (t : Time), s.rework_done_added = some t →
      (events.foldl (scanStep cfg) s).rework_done_added = some t := by
  induction events with
  | nil => intro s t h; simpa using h
  | cons e es ih =>
    intro s t h
    rw [List.foldl_cons]
    exact ih _ t (scanStep_done_some cfg s e t h)

/-- The `rework_added` tracker holds exactly the first "add" of the rework
label: no preceding distinctness assumption is needed because the rework
branch is the first branch of the `if`/`elif` chain. -/
lemma scan_foldl_rework (cfg : Config) (events : List LabelEvent) :
    ∀ s : ScanState, s.rework_added = none →
      (events.foldl (scanStep cfg) s).rework_added
        = firstAddTime cfg.LABEL_REWORK events := by
  induction events with
  | nil => intro s h; simpa [firstAddTime] using h
  | cons e es ih =>
    intro s h
    rw [List.foldl_cons]
    by_cases hm : e.label = some cfg.LABEL_REWORK ∧ e.action = "add"
    · obtain ⟨hl, ha⟩ := hm
      have hstep : (scanStep cfg s e).rework_added = some e.created_at := by
        simp [scanStep, hl, ha, h]
      rw [scan_foldl_rework_some cfg es _ _ hstep]
      unfold firstAddTime
      rw [List.find?_cons_of_pos _ (by simp [hl, ha])]
      rfl
    · have hstep : (scanStep cfg s e).rework_added = none := by
        cases hl : e.label with
        | none => simpa [scanStep, hl] using h
        | some lbl =>
          by_cases ha : e.action = "add"
          · have hne : lbl ≠ cfg.LABEL_REWORK := by
              intro hEq
              exact hm ⟨by rw [hl, hEq], ha⟩
            simp only [scanStep, hl, if_pos ha]
            split_ifs <;> simp_all
          · simpa [scanStep, hl, ha] using h
      rw [ih _ hstep]
      unfold firstAddTime
      rw [List.find?_cons_of_neg _ (by simpa using hm)]

/-- The `rework_done_added` tracker holds the first "add" of the rework_done
label, provided that label name is distinct from the two earlier labels of
the `elif` chain (otherwise an earlier branch can capture the event). -/
lemma scan_foldl_done (cfg : Config) (events : List LabelEvent)
    (hd1 : cfg.LABEL_REWORK_DONE ≠ cfg.LABEL_REWORK)
    (hd2 : cfg.LABEL_REWORK_DONE ≠ cfg.LABEL_IN_REVIEW) :
    ∀ s : ScanState, s.rework_done_added = none →
      (events.foldl (scanStep cfg) s).rework_done_added
        = firstAddTime cfg.LABEL_REWORK_DONE events := by
  induction events with
  | nil => intro s h; simpa [firstAddTime] using h
  | cons e es ih =>
    intro s h
    rw [List.foldl_cons]
    by_cases hm : e.label = some cfg.LABEL_REWORK_DONE ∧ e.action = "add"
    · obtain ⟨hl, ha⟩ := hm
      have hstep : (scanStep cfg s e).rework_done_added = some e.created_at := by
        simp only [scanStep, hl, if_pos ha]
        split_ifs with h1 h2 h3
        · exact absurd h1.1 hd1
        · exact absurd h2.1 hd2
        · rfl
        · simp_all
      rw [scan_foldl_done_some cfg es _ _ hstep]
      unfold firstAddTime
      rw [List.find?_cons_of_pos _ (by simp [hl, ha])]
      rfl
    · have hstep : (scanStep cfg s e).rework_done_added = none := by
        cases hl : e.label with
        | none => simpa [scanStep, hl] using h
        | some lbl =>
          by_cases ha : e.action = "add"
          · have hne : lbl ≠ cfg.LABEL_REWORK_DONE := by
              intro hEq
              exact hm ⟨by rw [hl, hEq], ha⟩
            simp only [scanStep, hl, if_pos ha]
            split_ifs <;> simp_all
          · simpa [scanStep, hl, ha] using h
      rw [ih _ hstep]
      unfold firstAddTime
      rw [List.find?_cons_of_neg _ (by simpa using hm)]

/-- Without any "add" of the rework_done label in the log, the
`rework_done_added` tracker stays `None` (no distinctness needed: its branch
is the only one that writes it and requires an exact label match). -/
lemma scan_foldl_done_none (cfg : Config) (events : List LabelEvent)
    (hno : firstAddTime cfg.LABEL_REWORK_DONE events = none) :
    ∀ s : ScanState, s.rework_done_added = none →
      (events.foldl (scanStep cfg) s).rework_done_added = none := by
  induction events with
  | nil => intro s h; simpa using h
  | cons e es ih =>
    intro s h
    have hm : ¬(e.label = some cfg.LABEL_REWORK_DONE ∧ e.action = "add") := by
      intro hc
      unfold firstAddTime at hno
      rw [List.find?_cons_of_pos _ (by simp [hc.1, hc.2])] at hno
      simp at hno
    have htl : firstAddTime cfg.LABEL_REWORK_DONE es = none := by
      unfold firstAddTime at hno ⊢
      rwa [List.find?_cons_of_neg _ (by simpa using hm)] at hno
    have hstep : (scanStep cfg s e).rework_done_added = none := by
      cases hl : e.label with
      | none => simpa [scanStep, hl] using h
      | some lbl =>
        by_cases ha : e.action = "add"
        · have hne : lbl ≠ cfg.LABEL_REWORK_DONE := by
            intro hEq
            exact hm ⟨by rw [hl, hEq], ha⟩
          simp only [scanStep, hl, if_pos ha]
          split_ifs <;> simp_all
        · simpa [scanStep, hl, ha] using h
    rw [List.foldl_cons]
    exact ih htl _ hstep

/-- Events whose action is not "add" leave the scan state unchanged. -/
lemma scanStep_non_add (cfg : Config) (s : ScanState) (e : LabelEvent)
    (h : ¬e.action = "add") : scanStep cfg s e = s := by
  cases hl : e.label <;> simp [scanStep, hl, h]

/-- The scan only sees the subsequence of "add" events. -/
lemma scan_foldl_filter_add (cfg : Config) (events : List LabelEvent) :
    ∀ s : ScanState,
      events.foldl (scanStep cfg) s
        = (events.filter fun e => decide (e.action = "add")).foldl
            (scanStep cfg) s := by
  induction events with
  | nil => intro s; rfl
  | cons e es ih =>
    intro s
    by_cases ha : e.action = "add"
    · rw [List.foldl_cons, List.filter_cons_of_pos (by simpa using ha),
        List.foldl_cons]
      exact ih _
    · rw [List.foldl_cons, scanStep_non_add cfg s e ha,
        List.filter_cons_of_neg (by simpa using ha)]
      exact ih s

/-- An empty-filter scan stays at the initial all-`None` state, so
`durationsFromScan` yields the all-absent triple. -/
lemma durationsFromScan_init (created_at now : Time) :
    durationsFromScan ⟨none, none, none⟩ created_at now = (none, none, none) :=
  rfl

/-- On a non-empty log, the reducer is the duration computation applied to
the scan of the log. -/
lemma calculate_eq (cfg : Config) (created_at : Time)
    (events : List LabelEvent) (now : Time) (h : events ≠ []) :
    calculate_time_in_state cfg created_at events now
      = durationsFromScan (scanOf cfg events) created_at now := by
  simp [calculate_time_in_state, h]

/-- C1: for every event log whose first add of the rework label is at `T1`
and whose first add of the rework_done label is at `T2 > T1` (with the three
configured labels distinct), `calculate_time_in_state` returns
`time_in_rework` exactly equal to `(T2 - T1)` seconds expressed in
fractional hours; moreover, the reducer's whole result on any log equals its
result on the log restricted to its "add" events, so remove events never
affect the value and only the first add per label is recorded. -/
theorem c1_time_in_rework_from_first_adds
    (cfg : Config) (created_at now T1 T2 : Time) (events : List LabelEvent)
    (hd1 : cfg.LABEL_REWORK_DONE ≠ cfg.LABEL_REWORK)
    (hd2 : cfg.LABEL_REWORK_DONE ≠ cfg.LABEL_IN_REVIEW)
    (h1 : firstAddTime cfg.LABEL_REWORK events = some T1)
    (h2 : firstAddTime cfg.LABEL_REWORK_DONE events = some T2)
    (hlt : T1 < T2) :
    (calculate_time_in_state cfg created_at events now).1
        = some (((T2 - T1 : ℤ) : ℚ) / 3600)
      ∧ ∀ (cfg' : Config) (c n : Time) (evs : List LabelEvent),
          calculate_time_in_state cfg' c evs n
            = calculate_time_in_state cfg' c
                (evs.filter fun e => decide (e.action = "add")) n := by
  constructor
  · have hne : events ≠ [] := by
      intro hcon
      rw [hcon] at h1
      simp [firstAddTime] at h1
    have hra : (scanOf cfg events).rework_added = some T1 := by
      unfold scanOf
      rw [scan_foldl_rework cfg events ⟨none, none, none⟩ rfl]
      exact h1
    have hrd : (scanOf cfg events).rework_done_added = some T2 := by
      unfold scanOf
      rw [scan_foldl_done cfg events hd1 hd2 ⟨none, none, none⟩ rfl]
      exact h2
    rw [calculate_eq cfg created_at events now hne]
    simp [durationsFromScan, hra, hrd]
  · intro cfg' c n evs
    by_cases hevs : evs = []
    · subst hevs; rfl
    · by_cases hf : (evs.filter fun e => decide (e.action = "add")) = []
      · rw [calculate_eq cfg' c evs n hevs, hf]
        have hscan : scanOf cfg' evs = ⟨none, none, none⟩ := by
          unfold scanOf
          rw [scan_foldl_filter_add cfg' evs, hf]
          rfl
        rw [hscan, durationsFromScan_init]
        rfl
      · rw [calculate_eq cfg' c evs n hevs, calculate_eq cfg' c _ n hf]
        unfold scanOf
        rw [scan_foldl_filter_add cfg' evs]

/-- Witness for C1: on the sample log, rework is first added at 3600 and
rework_done first added at 10800, and the reducer reports exactly two hours
in rework despite the intervening remove and the later re-add. -/
theorem c1_witness :
    (calculate_time_in_state cfgEx 0 eventsEx1 20000).1
      = some (((10800 - 3600 : ℤ) : ℚ) / 3600) :=
  (c1_time_in_rework_from_first_adds cfgEx 0 20000 3600 10800 eventsEx1
    (by decide) (by decide) (by decide) (by decide) (by decide)).1

/-- C4: for every event log containing no "add" of the rework_done label,
both `time_in_rework` and `time_to_complete` are absent, regardless of
rework or in_review events. -/
theorem c4_absent_without_rework_done_add
    (cfg : Config) (created_at now : Time) (events : List LabelEvent)
    (h : firstAddTime cfg.LABEL_REWORK_DONE events = none) :
    (calculate_time_in_state cfg created_at events now).1 = none
      ∧ (calculate_time_in_state cfg created_at events now).2.2 = none := by
  by_cases hevs : events = []
  · subst hevs; exact ⟨rfl, rfl⟩
  · have hdone : (scanOf cfg events).rework_done_added = none := by
      unfold scanOf
      exact scan_foldl_done_none cfg events h ⟨none, none, none⟩ rfl
    rw [calculate_eq cfg created_at events now hevs]
    refine ⟨?_, ?_⟩
    · cases hra : (scanOf cfg events).rework_added <;>
        simp [durationsFromScan, hdone, hra]
    · simp [durationsFromScan, hdone]

/-- Witness for C4 at a log with rework and in_review adds only. -/
theorem c4_witness :
    (calculate_time_in_state cfgEx 0 eventsNoDone 50).1 = none
      ∧ (calculate_time_in_state cfgEx 0 eventsNoDone 50).2.2 = none :=
  c4_absent_without_rework_done_add cfgEx 0 50 eventsNoDone (by decide)

/-- C7 counterexample: the claim quantifies over every input, but on an
out-of-order log whose rework_done add carries an earlier timestamp than the
rework add, the reducer produces a negative duration (minus one hour), so
not every returned duration is absent-or-non-negative. -/
theorem c7_counterexample :
    (calculate_time_in_state cfgEx 0 eventsOutOfOrder 0).1 = some (-1)
      ∧ ((-1 : ℚ) < 0) := by
  constructor
  · have hra : (scanOf cfgEx eventsOutOfOrder).rework_added = some 7200 := by
      decide
    have hrd : (scanOf cfgEx eventsOutOfOrder).rework_done_added = some 3600 := by
      decide
    rw [calculate_eq cfgEx 0 eventsOutOfOrder 0 (by decide)]
    simp only [durationsFromScan, hra, hrd]
    norm_num
  · norm_num

/-- Every sample line of a rendered per-item record has non-negative value:
the info line is the constant 1 and each timing line is emitted only under a
strict positivity guard. -/
lemma renderBranch_value_nonneg (bd : BranchData) :
    ∀ l ∈ renderBranch bd, 0 ≤ l.value := by
  intro l hl
  simp only [renderBranch, List.mem_append] at hl
  rcases hl with ((h | h) | h) | h
  · rw [List.mem_singleton] at h
    subst h
    norm_num
  · by_cases hc : bd.time_in_rework > 0
    · rw [if_pos hc, List.mem_singleton] at h
      subst h
      exact le_of_lt hc
    · rw [if_neg hc] at h
      simp at h
  · by_cases hc : bd.time_in_review > 0
    · rw [if_pos hc, List.mem_singleton] at h
      subst h
      exact le_of_lt hc
    · rw [if_neg hc] at h
      simp at h
  · by_cases hc : bd.time_to_complete > 0
    · rw [if_pos hc, List.mem_singleton] at h
      subst h
      exact le_of_lt hc
    · rw [if_neg hc] at h
      simp at h

/-- Every project-level counter line has non-negative value (the counters
are natural numbers). -/
lemma renderProject_value_nonneg (entry : String × ProjectMetrics) :
    ∀ l ∈ renderProject entry, 0 ≤ l.value := by
  intro l hl
  simp only [renderProject, List.mem_cons, List.not_mem_nil, or_false] at hl
  rcases hl with rfl | rfl | rfl | rfl | rfl <;> simp

/-- C7 (amended): the reducer can produce a negative duration on an
out-of-order log, but no negative value ever reaches the exposition surface:
every sample line the renderer emits — project counters, info lines, and
timing lines — has non-negative value, because timing lines are emitted only
under a strict positivity guard. -/
theorem c7_no_negative_reaches_exposition (snap : Snapshot) :
    (render snap).filter (fun l => decide (l.value < 0)) = [] := by
  rw [List.filter_eq_nil_iff]
  intro l hl
  simp only [decide_eq_true_eq, not_lt]
  unfold render at hl
  rcases List.mem_append.1 hl with h | h
  · obtain ⟨ls, hls, hmem⟩ := List.mem_flatten.1 h
    obtain ⟨entry, _, rfl⟩ := List.mem_map.1 hls
    exact renderProject_value_nonneg entry l hmem
  · obtain ⟨ls, hls, hmem⟩ := List.mem_flatten.1 h
    obtain ⟨bd, _, rfl⟩ := List.mem_map.1 hls
    exact renderBranch_value_nonneg bd l hmem

/-- C5 counterexample: an item whose (empty) event log yields an absent
in-review duration and an item whose log yields a measured in-review
duration of exactly zero produce the same per-item record (`or 0` collapses
absent to zero at line 169) and therefore identical exposition output, so
absent is not rendered differently from a real zero measurement. -/
theorem c5_counterexample :
    (calculate_time_in_state cfgEx 3600 ([] : List LabelEvent) 9999).2.1 = none
      ∧ (calculate_time_in_state cfgEx 3600 eventsZeroReview 9999).2.1 = some 0
      ∧ mkBranchData "group/repo" cfgEx mrPlain
          (calculate_time_in_state cfgEx 3600 ([] : List LabelEvent) 9999)
          = mkBranchData "group/repo" cfgEx mrPlain
            (calculate_time_in_state cfgEx 3600 eventsZeroReview 9999)
      ∧ renderBranch (mkBranchData "group/repo" cfgEx mrPlain
          (calculate_time_in_state cfgEx 3600 ([] : List LabelEvent) 9999))
          = renderBranch (mkBranchData "group/repo" cfgEx mrPlain
            (calculate_time_in_state cfgEx 3600 eventsZeroReview 9999)) := by
  have hir : (scanOf cfgEx eventsZeroReview).in_review_added = some 3600 := by
    decide
  have hrd : (scanOf cfgEx eventsZeroReview).rework_done_added = some 3600 := by
    decide
  have hra : (scanOf cfgEx eventsZeroReview).rework_added = none := by decide
  have hv : calculate_time_in_state cfgEx 3600 eventsZeroReview 9999
      = (none, some 0, some 0) := by
    rw [calculate_eq cfgEx 3600 eventsZeroReview 9999 (by decide)]
    simp only [durationsFromScan, hir, hrd, hra]
    norm_num
  have hmk : mkBranchData "group/repo" cfgEx mrPlain
      (calculate_time_in_state cfgEx 3600 ([] : List LabelEvent) 9999)
      = mkBranchData "group/repo" cfgEx mrPlain
        (calculate_time_in_state cfgEx 3600 eventsZeroReview 9999) := by
    rw [hv]
    rfl
  exact ⟨rfl, by rw [hv], hmk, congrArg renderBranch hmk⟩

/-- C5 (amended): an absent duration and a measured zero are rendered
identically, not differently: the per-item record coerces absent durations
to 0 (Python's `or 0`), and the renderer omits the timing line both for
absent and for exactly-zero durations. -/
theorem c5_absent_and_zero_render_identically (project_name : String)
    (cfg : Config) (mr : MR) :
    mkBranchData project_name cfg mr (none, none, none)
        = mkBranchData project_name cfg mr (some 0, some 0, some 0)
      ∧ (renderBranch (mkBranchData project_name cfg mr
          (none, none, none))).filter (fun l => isTimingMetric l.metric)
          = [] := by
  constructor
  · rfl
  · simp [renderBranch, mkBranchData, orZero, isTimingMetric]

/-- C6: for every per-item record, each of the three timing series is
emitted if and only if the stored value is strictly positive — the filtered
output is the singleton sample line exactly under the positivity guard and
empty otherwise; in particular a record with `time_in_review = 0` produces
no in-review sample line, while a record with `time_in_review = 0.01`
produces exactly one such line with value 0.01. -/
theorem c6_timing_emission_iff_positive :
    (∀ bd : BranchData,
        (((renderBranch bd).filter fun l =>
              decide (l.metric = MetricName.time_in_rework_hours))
            = if bd.time_in_rework > 0 then
                [⟨MetricName.time_in_rework_hours, bd.project,
                  escapeQuotes bd.branch, escapeQuotes bd.target_branch,
                  (escapeQuotes bd.mr_title).take 50, bd.time_in_rework⟩]
              else [])
          ∧ (((renderBranch bd).filter fun l =>
              decide (l.metric = MetricName.time_in_review_hours))
            = if bd.time_in_review > 0 then
                [⟨MetricName.time_in_review_hours, bd.project,
                  escapeQuotes bd.branch, escapeQuotes bd.target_branch,
                  (escapeQuotes bd.mr_title).take 50, bd.time_in_review⟩]
              else [])
          ∧ (((renderBranch bd).filter fun l =>
              decide (l.metric = MetricName.time_to_complete_hours))
            = if bd.time_to_complete > 0 then
                [⟨MetricName.time_to_complete_hours, bd.project,
                  escapeQuotes bd.branch, escapeQuotes bd.target_branch,
                  (escapeQuotes bd.mr_title).take 50, bd.time_to_complete⟩]
              else []))
      ∧ ((renderBranch bdReview0).filter fun l =>
            decide (l.metric = MetricName.time_in_review_hours)) = []
      ∧ ((renderBranch bdReview001).filter fun l =>
            decide (l.metric = MetricName.time_in_review_hours))
          = [⟨MetricName.time_in_review_hours, "group/repo",
              escapeQuotes "feature", escapeQuotes "main",
              (escapeQuotes "Fix").take 50, 1 / 100⟩] := by
  refine ⟨fun bd => ⟨?_, ?_, ?_⟩, ?_, ?_⟩
  · simp only [renderBranch, List.filter_append]
    split_ifs <;> simp
  · simp only [renderBranch, List.filter_append]
    split_ifs <;> simp
  · simp only [renderBranch, List.filter_append]
    split_ifs <;> simp
  · norm_num [renderBranch, bdReview0]
    decide
  · norm_num [renderBranch, bdReview001, bdReview0]
    simp [List.filter_cons]

/-- The cache written by `collect_metrics` always stores exactly the
snapshot it returns, in both the cached and the refreshed branch. -/
lemma collect_cache_data (w : World) (cfg : Config) (now : Time)
    (cache : Cache) :
    (collect_metrics w cfg now cache).2.1.data
      = (collect_metrics w cfg now cache).1 := by
  unfold collect_metrics
  split <;> rfl

/-- C2: a second call to `collect_metrics` whose wall-clock time is within
the 10-second freshness window of the cache left by a first call returns
exactly the first call's snapshot and cache, runs no collector and fires no
notification — for any second world, so no upstream call can influence it;
and once the window has elapsed, the collector runs and both the stored
snapshot and the stored timestamp are replaced by the new ones. -/
theorem c2_result_cache_freshness :
    (∀ (w1 w2 : World) (cfg : Config) (t1 t2 : Time) (cache : Cache),
      t2 - (collect_metrics w1 cfg t1 cache).2.1.last_update < 10 →
        collect_metrics w2 cfg t2 (collect_metrics w1 cfg t1 cache).2.1
          = ((collect_metrics w1 cfg t1 cache).1,
              (collect_metrics w1 cfg t1 cache).2.1, false, false))
      ∧ (∀ (w : World) (cfg : Config) (now : Time) (cache : Cache),
          ¬(now - cache.last_update < 10) →
            (collect_metrics w cfg now cache).2.2.1 = true
              ∧ (collect_metrics w cfg now cache).2.1.data
                  = (collect_metrics w cfg now cache).1
              ∧ (collect_metrics w cfg now cache).2.1.last_update = now) := by
  constructor
  · intro w1 w2 cfg t1 t2 cache h
    have hdata := collect_cache_data w1 cfg t1 cache
    set c1 := (collect_metrics w1 cfg t1 cache).2.1 with hc1
    have hsecond : collect_metrics w2 cfg t2 c1 = (c1.data, c1, false, false) := by
      unfold collect_metrics
      rw [if_pos h]
    rw [hsecond, hdata]
  · intro w cfg now cache h
    unfold collect_metrics
    rw [if_neg h]
    exact ⟨rfl, rfl, rfl⟩

/-- Witness for C2: a fresh second call 7 seconds after a call against a
20-second-old cache returns that cache unchanged, and a stale call at time
40 replaces the stored timestamp. -/
theorem c2_witness :
    collect_metrics (worldMine 1) cfgEx 27
        (collect_metrics (worldMine 1) cfgEx 25 cache20).2.1
      = ((collect_metrics (worldMine 1) cfgEx 25 cache20).1,
          (collect_metrics (worldMine 1) cfgEx 25 cache20).2.1, false, false)
      ∧ (collect_metrics (worldMine 1) cfgEx 40 cache20).2.1.last_update = 40 :=
  ⟨c2_result_cache_freshness.1 (worldMine 1) (worldMine 1) cfgEx 25 27 cache20
      (by decide),
    (c2_result_cache_freshness.2 (worldMine 1) cfgEx 40 cache20 (by decide)).2.2⟩

/-- The notification condition of line 198 — list non-empty and strictly
more items than the recorded count — is equivalent to the strict increase
alone, because a strictly larger count is in particular positive. -/
lemma notified_iff (c : ℕ) (l : List ReworkItem) :
    ((!l.isEmpty && decide (c < l.length)) = true) ↔ c < l.length := by
  cases l with
  | nil => simp
  | cons a as => simp

/-- C3: on every non-cached cycle, a notification fires if and only if the
current rework-assigned-to-me count strictly exceeds the last recorded
count — decreases and no-change never notify — and the recorded count is
replaced by the current count unconditionally (the mail transport outcome is
swallowed by `send_email_alert` and never reaches the cache); on the count
trace [2, 2, 1, 3] starting from a recorded count of 0, notifications fire
exactly on the 0-to-2 and 1-to-3 transitions. -/
theorem c3_alert_dedup_monotonic :
    (∀ (w : World) (cfg : Config) (now : Time) (cache : Cache),
      ¬(now - cache.last_update < 10) →
        (((collect_metrics w cfg now cache).2.2.2 = true
            ↔ cache.last_rework_count < (reworkItems w cfg now).length)
          ∧ (collect_metrics w cfg now cache).2.1.last_rework_count
              = (reworkItems w cfg now).length))
      ∧ (c3cycle1.2.2.2 = true ∧ c3cycle2.2.2.2 = false
          ∧ c3cycle3.2.2.2 = false ∧ c3cycle4.2.2.2 = true
          ∧ c3cycle1.2.1.last_rework_count = 2
          ∧ c3cycle2.2.1.last_rework_count = 2
          ∧ c3cycle3.2.1.last_rework_count = 1
          ∧ c3cycle4.2.1.last_rework_count = 3) := by
  constructor
  · intro w cfg now cache h
    unfold collect_metrics
    rw [if_neg h]
    exact ⟨notified_iff cache.last_rework_count (reworkItems w cfg now), rfl⟩
  · exact ⟨by decide, by decide, by decide, by decide, by decide, by decide,
      by decide, by decide⟩

/-- Witness for C3 on a concrete refresh cycle. -/
theorem c3_witness :
    (collect_metrics (worldMine 2) cfgEx 10 initialCache).2.1.last_rework_count
      = (reworkItems (worldMine 2) cfgEx 10).length :=
  (c3_alert_dedup_monotonic.1 (worldMine 2) cfgEx 10 initialCache (by decide)).2

/-- Per-merge-request step: the rework-assigned-to-me counter grows by one,
and the alert list by one entry, exactly when the rework label is present
and the email local part occurs among the assignee usernames. -/
lemma processMRStep_assigned (w : World) (cfg : Config) (now : Time)
    (pid : ℕ) (pname : String) (acc : MRAcc) (mr : MR) :
    ((processMRStep w cfg now pid pname acc mr).pm.rework_assigned_to_me
        = acc.pm.rework_assigned_to_me
          + (if cfg.LABEL_REWORK ∈ mr.labels
              ∧ emailLocal cfg.YOUR_EMAIL ∈ assigneeUsernames mr
            then 1 else 0))
      ∧ ((processMRStep w cfg now pid pname acc mr).rework_mrs
          = acc.rework_mrs
            ++ (if cfg.LABEL_REWORK ∈ mr.labels
                ∧ emailLocal cfg.YOUR_EMAIL ∈ assigneeUsernames mr
              then [⟨mr.title, mr.web_url, mr.created_at, pname⟩] else [])) := by
  by_cases h1 : cfg.LABEL_REWORK ∈ mr.labels <;>
    by_cases h2 : emailLocal cfg.YOUR_EMAIL ∈ assigneeUsernames mr <;>
      constructor <;>
        simp only [processMRStep, h1, h2, if_true, if_false, and_self,
          true_and, false_and, and_false, if_pos, if_neg, not_false_iff] <;>
        (try split_ifs) <;> simp

/-- Folding the per-merge-request step counts exactly the merge requests
whose label set contains the rework label and whose assignee usernames
contain the email local part, and collects exactly their alert entries. -/
lemma processMR_foldl_assigned (w : World) (cfg : Config) (now : Time)
    (pid : ℕ) (pname : String) (mrs : List MR) :
    ∀ acc : MRAcc,
      ((mrs.foldl (processMRStep w cfg now pid pname) acc).pm.rework_assigned_to_me
          = acc.pm.rework_assigned_to_me
            + (mrs.filter fun mr =>
                decide (cfg.LABEL_REWORK ∈ mr.labels)
                  && decide (emailLocal cfg.YOUR_EMAIL ∈ assigneeUsernames mr)).length)
        ∧ ((mrs.foldl (processMRStep w cfg now pid pname) acc).rework_mrs
            = acc.rework_mrs
              ++ ((mrs.filter fun mr =>
                  decide (cfg.LABEL_REWORK ∈ mr.labels)
                    && decide (emailLocal cfg.YOUR_EMAIL ∈ assigneeUsernames mr)).map
                  fun mr => ⟨mr.title, mr.web_url, mr.created_at, pname⟩)) := by
  induction mrs with
  | nil => intro acc; simp
  | cons mr mrs ih =>
    intro acc
    rw [List.foldl_cons, List.filter_cons]
    obtain ⟨hc, hr⟩ :=
      processMRStep_assigned w cfg now pid pname acc mr
    obtain ⟨ihc, ihr⟩ := ih (processMRStep w cfg now pid pname acc mr)
    by_cases hP : cfg.LABEL_REWORK ∈ mr.labels
        ∧ emailLocal cfg.YOUR_EMAIL ∈ assigneeUsernames mr
    · rw [if_pos hP] at hc hr
      rw [if_pos (by simpa using hP)]
      constructor
      · rw [ihc, hc, List.length_cons]
        omega
      · rw [ihr, hr, List.map_cons, List.append_assoc]
        rfl
    · rw [if_neg hP] at hc hr
      rw [if_neg (by simpa using hP)]
      constructor
      · rw [ihc, hc]
        omega
      · rw [ihr, hr, List.append_nil]

/-- C10: an open merge request is counted in `rework_assigned_to_me` (and
appended to the alert item list) exactly when the rework label is in its
label set and the substring of the configured email before the first
at-sign occurs among its assignee usernames; the compared token never
contains an at-sign, so a full email address (which does) never equals it,
and only the `username` field of assignees is consulted. -/
theorem c10_rework_assigned_to_me_match (w : World) (cfg : Config)
    (now : Time) (p : Project) :
    ((processProject w cfg now p).1.2.rework_assigned_to_me
        = ((get_merge_requests w p.id).filter fun mr =>
            decide (cfg.LABEL_REWORK ∈ mr.labels)
              && decide (emailLocal cfg.YOUR_EMAIL ∈ assigneeUsernames mr)).length)
      ∧ ((processProject w cfg now p).2.2
          = ((get_merge_requests w p.id).filter fun mr =>
              decide (cfg.LABEL_REWORK ∈ mr.labels)
                && decide (emailLocal cfg.YOUR_EMAIL ∈ assigneeUsernames mr)).map
              fun mr =>
                (⟨mr.title, mr.web_url, mr.created_at,
                  p.path_with_namespace⟩ : ReworkItem))
      ∧ (∀ e : String, '@' ∈ e.data →
          emailLocal e ≠ e ∧ '@' ∉ (emailLocal e).data) := by
  refine ⟨?_, ?_, ?_⟩
  · have h := (processMR_foldl_assigned w cfg now p.id p.path_with_namespace
      (get_merge_requests w p.id) ⟨⟨0, 0, 0, 0, 0⟩, [], []⟩).1
    simpa [processProject] using h
  · have h := (processMR_foldl_assigned w cfg now p.id p.path_with_namespace
      (get_merge_requests w p.id) ⟨⟨0, 0, 0, 0, 0⟩, [], []⟩).2
    simpa [processProject] using h
  · intro e he
    have hnot : '@' ∉ (emailLocal e).data := by
      intro hmem
      have := List.mem_takeWhile_imp hmem
      simp at this
    refine ⟨?_, hnot⟩
    intro hEq
    rw [hEq] at hnot
    exact hnot he

/-- Witness for C10 on a concrete project with two qualifying merge
requests and on the concrete configured email. -/
theorem c10_witness :
    ((processProject (worldMine 2) cfgEx 0 projEx).1.2.rework_assigned_to_me
        = ((get_merge_requests (worldMine 2) projEx.id).filter fun mr =>
            decide (cfgEx.LABEL_REWORK ∈ mr.labels)
              && decide (emailLocal cfgEx.YOUR_EMAIL ∈ assigneeUsernames mr)).length)
      ∧ emailLocal "me@example.com" ≠ "me@example.com" :=
  ⟨(c10_rework_assigned_to_me_match (worldMine 2) cfgEx 0 projEx).1,
    ((c10_rework_assigned_to_me_match (worldMine 2) cfgEx 0 projEx).2.2
      "me@example.com" (by decide)).1⟩

/-- Project resolution depends only on the search endpoint's responses. -/
lemma get_all_projects_congr (w1 w2 : World) (cfg : Config)
    (hs : ∀ s, w1.searchProjects s = w2.searchProjects s) :
    get_all_projects w1 cfg = get_all_projects w2 cfg := by
  unfold get_all_projects
  congr 1
  funext repo_name
  rw [hs]

/-- The per-merge-request step consults the world only through the
label-event fetch of that merge request. -/
lemma processMRStep_congr (w1 w2 : World) (cfg : Config) (now : Time)
    (pid : ℕ) (pname : String) (acc : MRAcc) (mr : MR)
    (h : get_mr_label_events w1 pid mr.iid
      = get_mr_label_events w2 pid mr.iid) :
    processMRStep w1 cfg now pid pname acc mr
      = processMRStep w2 cfg now pid pname acc mr := by
  unfold processMRStep
  rw [h]

/-- Folds with pointwise-equal step functions coincide. -/
lemma foldl_congr_mem {α β : Type} (f g : β → α → β) (l : List α)
    (h : ∀ b a, a ∈ l → f b a = g b a) : ∀ b, l.foldl f b = l.foldl g b := by
  induction l with
  | nil => intro b; rfl
  | cons a as ih =>
    intro b
    rw [List.foldl_cons, List.foldl_cons, h b a (by simp)]
    exact ih (fun b a ha => h b a (by simp [ha])) _

/-- A project's whole contribution depends only on the world's responses for
that project (its item list and its items' event logs). -/
lemma processProject_congr (w1 w2 : World) (cfg : Config) (now : Time)
    (p : Project)
    (hm : w1.mergeRequests p.id = w2.mergeRequests p.id)
    (he : ∀ j, w1.labelEvents p.id j = w2.labelEvents p.id j) :
    processProject w1 cfg now p = processProject w2 cfg now p := by
  have hmrs : get_merge_requests w1 p.id = get_merge_requests w2 p.id := by
    unfold get_merge_requests
    rw [hm]
  have key : (get_merge_requests w1 p.id).foldl
      (processMRStep w1 cfg now p.id p.path_with_namespace)
      ⟨⟨0, 0, 0, 0, 0⟩, [], []⟩
      = (get_merge_requests w2 p.id).foldl
        (processMRStep w2 cfg now p.id p.path_with_namespace)
        ⟨⟨0, 0, 0, 0, 0⟩, [], []⟩ := by
    rw [← hmrs]
    exact foldl_congr_mem _ _ _
      (fun acc mr _ => processMRStep_congr w1 w2 cfg now p.id
        p.path_with_namespace acc mr
        (by unfold get_mr_label_events; rw [he mr.iid])) _
  simp only [processProject]
  rw [key]

/-- The per-merge-request step's counters and alert-list component never
consult the world at all (only the per-item record does, through the
reducer's event fetch). -/
lemma processMRStep_pm_rw_indep (w1 w2 : World) (cfg : Config) (now : Time)
    (pid : ℕ) (pname : String) (acc1 acc2 : MRAcc) (mr : MR)
    (hpm : acc1.pm = acc2.pm) (hrw : acc1.rework_mrs = acc2.rework_mrs) :
    (processMRStep w1 cfg now pid pname acc1 mr).pm
        = (processMRStep w2 cfg now pid pname acc2 mr).pm
      ∧ (processMRStep w1 cfg now pid pname acc1 mr).rework_mrs
        = (processMRStep w2 cfg now pid pname acc2 mr).rework_mrs := by
  constructor <;> simp only [processMRStep, hpm, hrw]

/-- Fold form of `processMRStep_pm_rw_indep`. -/
lemma foldl_pm_rw_indep (w1 w2 : World) (cfg : Config) (now : Time)
    (pid : ℕ) (pname : String) (mrs : List MR) :
    ∀ acc1 acc2 : MRAcc, acc1.pm = acc2.pm →
      acc1.rework_mrs = acc2.rework_mrs →
      ((mrs.foldl (processMRStep w1 cfg now pid pname) acc1).pm
          = (mrs.foldl (processMRStep w2 cfg now pid pname) acc2).pm
        ∧ (mrs.foldl (processMRStep w1 cfg now pid pname) acc1).rework_mrs
          = (mrs.foldl (processMRStep w2 cfg now pid pname) acc2).rework_mrs) := by
  induction mrs with
  | nil => intro a1 a2 h1 h2; exact ⟨h1, h2⟩
  | cons mr mrs ih =>
    intro a1 a2 h1 h2
    rw [List.foldl_cons, List.foldl_cons]
    obtain ⟨hp, hr⟩ :=
      processMRStep_pm_rw_indep w1 w2 cfg now pid pname a1 a2 mr h1 h2
    exact ih _ _ hp hr

/-- A project's counters entry and alert-list contribution are independent
of the label-event endpoint entirely. -/
lemma processProject_pm_rw_indep (w1 w2 : World) (cfg : Config) (now : Time)
    (p : Project) (hm : w1.mergeRequests p.id = w2.mergeRequests p.id) :
    (processProject w1 cfg now p).1 = (processProject w2 cfg now p).1
      ∧ (processProject w1 cfg now p).2.2
        = (processProject w2 cfg now p).2.2 := by
  have hmrs : get_merge_requests w1 p.id = get_merge_requests w2 p.id := by
    unfold get_merge_requests
    rw [hm]
  obtain ⟨hp, hr⟩ := foldl_pm_rw_indep w1 w2 cfg now p.id
    p.path_with_namespace (get_merge_requests w2 p.id)
    ⟨⟨0, 0, 0, 0, 0⟩, [], []⟩ ⟨⟨0, 0, 0, 0, 0⟩, [], []⟩ rfl rfl
  constructor
  · simp only [processProject]
    rw [hmrs, hp]
  · simp only [processProject]
    rw [hmrs, hr]

/-- C8: the collector fails soft and failures stay local.  Any failed
upstream call degrades to the empty list; a project's whole contribution
depends only on the calls for that project, so another project's failures
cannot touch it; and when two worlds differ only in that the label-event
call of one designated item fails (or answers differently), every project
counter, the whole alert list, and the per-item record of every other item
are unchanged — only the designated item's own timings can differ. -/
theorem c8_fail_soft_isolation :
    (∀ (w : World) (pid iid : ℕ), w.labelEvents pid iid = .error () →
        get_mr_label_events w pid iid = [])
      ∧ (∀ (w : World) (pid : ℕ), w.mergeRequests pid = .error () →
          get_merge_requests w pid = [])
      ∧ (∀ (w : World) (s : String), w.searchProjects s = .error () →
          apiOrEmpty (w.searchProjects s) = [])
      ∧ (∀ (w1 w2 : World) (cfg : Config) (now : Time) (p : Project),
          w1.mergeRequests p.id = w2.mergeRequests p.id →
          (∀ j, w1.labelEvents p.id j = w2.labelEvents p.id j) →
          processProject w1 cfg now p = processProject w2 cfg now p)
      ∧ (∀ (w1 w2 : World) (cfg : Config) (now : Time) (pid iid : ℕ),
          (∀ s, w1.searchProjects s = w2.searchProjects s) →
          (∀ i, w1.mergeRequests i = w2.mergeRequests i) →
          (∀ i j, ¬(i = pid ∧ j = iid) →
            w1.labelEvents i j = w2.labelEvents i j) →
          (collectSnapshot w1 cfg now).project_metrics
              = (collectSnapshot w2 cfg now).project_metrics
            ∧ reworkItems w1 cfg now = reworkItems w2 cfg now
            ∧ ∀ p ∈ get_all_projects w1 cfg,
                ∀ mr ∈ get_merge_requests w1 p.id,
                  ¬(p.id = pid ∧ mr.iid = iid) →
                  mkBranchData p.path_with_namespace cfg mr
                      (calculate_time_in_state cfg mr.created_at
                        (get_mr_label_events w1 p.id mr.iid) now)
                    = mkBranchData p.path_with_namespace cfg mr
                      (calculate_time_in_state cfg mr.created_at
                        (get_mr_label_events w2 p.id mr.iid) now)) := by
  refine ⟨?_, ?_, ?_, ?_, ?_⟩
  · intro w pid iid h
    unfold get_mr_label_events
    rw [h]
    rfl
  · intro w pid h
    unfold get_merge_requests
    rw [h]
    rfl
  · intro w s h
    rw [h]
    rfl
  · intro w1 w2 cfg now p hm he
    exact processProject_congr w1 w2 cfg now p hm he
  · intro w1 w2 cfg now pid iid hs hm he
    have hproj : get_all_projects w1 cfg = get_all_projects w2 cfg :=
      get_all_projects_congr w1 w2 cfg hs
    refine ⟨?_, ?_, ?_⟩
    · simp only [collectSnapshot, List.map_map]
      rw [hproj]
      exact List.map_congr_left fun p _ =>
        (processProject_pm_rw_indep w1 w2 cfg now p (hm p.id)).1
    · simp only [reworkItems, List.map_map]
      rw [hproj]
      exact congrArg List.flatten (List.map_congr_left fun p _ =>
        (processProject_pm_rw_indep w1 w2 cfg now p (hm p.id)).2)
    · intro p _ mr _ hne
      have : get_mr_label_events w1 p.id mr.iid
          = get_mr_label_events w2 p.id mr.iid := by
        unfold get_mr_label_events
        rw [he p.id mr.iid hne]
      rw [this]

/-- Witness for C8: with the label-event call of item 2 failing in `w8b`
but not in `w8a`, the project counters and the alert list agree, the failed
call itself degrades to the empty list, and item 1's per-item record is
unchanged. -/
theorem c8_witness :
    (collectSnapshot w8a cfgEx 0).project_metrics
        = (collectSnapshot w8b cfgEx 0).project_metrics
      ∧ reworkItems w8a cfgEx 0 = reworkItems w8b cfgEx 0
      ∧ get_mr_label_events w8b 1 2 = []
      ∧ mkBranchData projEx.path_with_namespace cfgEx (mrMine 1)
          (calculate_time_in_state cfgEx (mrMine 1).created_at
            (get_mr_label_events w8a 1 1) 0)
          = mkBranchData projEx.path_with_namespace cfgEx (mrMine 1)
            (calculate_time_in_state cfgEx (mrMine 1).created_at
              (get_mr_label_events w8b 1 1) 0) := by
  have hs : ∀ s, w8a.searchProjects s = w8b.searchProjects s := fun s => rfl
  have hm : ∀ i, w8a.mergeRequests i = w8b.mergeRequests i := fun i => rfl
  have he : ∀ i j, ¬(i = 1 ∧ j = 2) →
      w8a.labelEvents i j = w8b.labelEvents i j := by
    intro i j hij
    show _ = if i = 1 ∧ j = 2 then _ else _
    rw [if_neg hij]
  obtain ⟨h1, h2, h3⟩ :=
    c8_fail_soft_isolation.2.2.2.2 w8a w8b cfgEx 0 1 2 hs hm he
  refine ⟨h1, h2, c8_fail_soft_isolation.1 w8b 1 2 (by rfl), ?_⟩
  have hpmem : projEx ∈ get_all_projects w8a cfgEx := by decide
  have hmrmem : mrMine 1 ∈ get_merge_requests w8a projEx.id := by decide
  have := h3 projEx hpmem (mrMine 1) hmrmem (by decide)
  simpa using this

end GitlabExporter
